import Mathlib

/-!
Verification of `formulaic`, a small declarative data-modeling library.

The development is a shallow embedding of the library's Python sources:

* `src/formulaic/types.py`      → `Formulaic.Ty`
* `src/formulaic/attributes.py` → `Formulaic.Attribute` with `format`/`validate`
* `src/formulaic/triggers.py`   → trigger metadata and `TriggerEvent`
* `src/formulaic/models.py`     → `Formulaic.ModelState`, `Model.setattr`,
  `Model.init`, `Model.validate`, `Model.persist`
* `src/formulaic/validators.py` → `Formulaic.Validator.uuid`
* `src/formulaic/persistors.py` → `Formulaic.SQLPersistor`

Modelling conventions:

* Python runtime values are embedded as the inductive `Value` covering the
  kinds the library manipulates (`None`, booleans, integers, strings, lists).
* Python dicts are insertion-ordered association lists `List (String × Value)`
  with `alookup` / `aset` / `aerase` / `amerge` mirroring `d.get`, `d[k] = v`,
  `d.pop(k, None)` and `dict(d1, **d2)`.
* Exceptions are `Except` results (`PyErr.formatError` for the `ValueError`
  raised by formatters, `PyErr.validationError` for the `ValueError` raised by
  `Model.__setattr__` on validation failure).
* Trigger handlers are arbitrary Python callables invoked for their side
  effects; the embedding records each invocation as a `TriggerEvent` carrying
  the arguments the handler receives (the model argument is the instance
  itself, so it is not duplicated in the event).
* A `Persistor` is abstracted by its `persist` function from the merged
  attribute map to the optional key-attribute map it returns (`None` → `none`).
-/

namespace Formulaic

/-- Embedded Python values: the value kinds the library manipulates
(`None`, `bool`, `int`, `str`, `list`).  `float` and `dict` payloads are not
needed by any of the verified operations. -/
inductive Value where
  | none
  | bool (b : Bool)
  | int (n : Int)
  | str (s : String)
  | list (vs : List Value)
  deriving Repr

mutual

/-- Decidable equality for `Value` (hand-written because `Value` nests through
`List`). -/
def Value.decEq : (a b : Value) → Decidable (a = b)
  | .none, .none => isTrue rfl
  | .none, .bool _ => isFalse nofun
  | .none, .int _ => isFalse nofun
  | .none, .str _ => isFalse nofun
  | .none, .list _ => isFalse nofun
  | .bool _, .none => isFalse nofun
  | .bool x, .bool y =>
      if h : x = y then isTrue (h ▸ rfl) else
        isFalse (fun hh => h (by cases hh; rfl))
  | .bool _, .int _ => isFalse nofun
  | .bool _, .str _ => isFalse nofun
  | .bool _, .list _ => isFalse nofun
  | .int _, .none => isFalse nofun
  | .int _, .bool _ => isFalse nofun
  | .int x, .int y =>
      if h : x = y then isTrue (h ▸ rfl) else
        isFalse (fun hh => h (by cases hh; rfl))
  | .int _, .str _ => isFalse nofun
  | .int _, .list _ => isFalse nofun
  | .str _, .none => isFalse nofun
  | .str _, .bool _ => isFalse nofun
  | .str _, .int _ => isFalse nofun
  | .str x, .str y =>
      if h : x = y then isTrue (h ▸ rfl) else
        isFalse (fun hh => h (by cases hh; rfl))
  | .str _, .list _ => isFalse nofun
  | .list _, .none => isFalse nofun
  | .list _, .bool _ => isFalse nofun
  | .list _, .int _ => isFalse nofun
  | .list _, .str _ => isFalse nofun
  | .list xs, .list ys =>
      match Value.decEqList xs ys with
      | isTrue h => isTrue (h ▸ rfl)
      | isFalse h => isFalse (fun hh => h (by cases hh; rfl))

/-- Decidable equality for lists of `Value`s. -/
def Value.decEqList : (as bs : List Value) → Decidable (as = bs)
  | [], [] => isTrue rfl
  | [], _ :: _ => isFalse nofun
  | _ :: _, [] => isFalse nofun
  | a :: as, b :: bs =>
      match Value.decEq a b with
      | isFalse h => isFalse (fun hh => h (by cases hh; rfl))
      | isTrue h1 =>
        match Value.decEqList as bs with
        | isTrue h2 => isTrue (by rw [h1, h2])
        | isFalse h2 => isFalse (fun hh => h2 (by cases hh; rfl))

end

instance : DecidableEq Value := Value.decEq

mutual

/-- Python `==` on embedded values.  `bool` is a subclass of `int` in Python,
so `True == 1` and `False == 0`; lists compare elementwise with the same
cross-type rule; `None` equals only `None`; values of unrelated kinds are
unequal.  Python's `!=` on these builtin types is the negation of `==`. -/
def Value.pyEq : Value → Value → Bool
  | .none, .none => true
  | .bool a, .bool b => a == b
  | .bool a, .int n => (if a then (1 : Int) else 0) == n
  | .int n, .bool b => n == (if b then (1 : Int) else 0)
  | .int a, .int b => a == b
  | .str a, .str b => a == b
  | .list as, .list bs => Value.pyEqList as bs
  | _, _ => false

/-- Python `==` on lists of values, elementwise. -/
def Value.pyEqList : List Value → List Value → Bool
  | [], [] => true
  | a :: as, b :: bs => Value.pyEq a b && Value.pyEqList as bs
  | _, _ => false

end

/-- Python falsiness: `None`, `False`, `0`, the empty string and the empty
list are falsy, everything else is truthy. -/
def Value.falsy : Value → Bool
  | .none => true
  | .bool b => !b
  | .int n => n == 0
  | .str s => s == ""
  | .list vs => vs.isEmpty

/-- Python truthiness (`bool(v)`). -/
def Value.truthy (v : Value) : Bool := !v.falsy

/-- `isinstance(value, Type.LIST)`. -/
def Value.isList : Value → Bool
  | .list _ => true
  | _ => false

/-- The items of a list value (only meaningful under an `isList` guard). -/
def Value.elements : Value → List Value
  | .list vs => vs
  | _ => []

mutual

/-- Python `str(value)` on embedded values (list items are rendered with
`repr`, exactly as Python's `str` does for lists; string escapes inside
`repr` are not modelled since no verified statement depends on them). -/
def Value.pyStr : Value → String
  | .none => "None"
  | .bool true => "True"
  | .bool false => "False"
  | .int n => toString n
  | .str s => s
  | .list vs => "[" ++ String.intercalate ", " (Value.pyReprList vs) ++ "]"

/-- Python `repr(value)` restricted to what `str` of a list needs. -/
def Value.pyRepr : Value → String
  | .none => "None"
  | .bool true => "True"
  | .bool false => "False"
  | .int n => toString n
  | .str s => "'" ++ s ++ "'"
  | .list vs => "[" ++ String.intercalate ", " (Value.pyReprList vs) ++ "]"

/-- `repr` mapped over the items of a list value. -/
def Value.pyReprList : List Value → List String
  | [] => []
  | v :: vs => Value.pyRepr v :: Value.pyReprList vs

end

/-- `src/formulaic/types.py`: the `Type` constants.  In Python these are the
underlying runtime types; the only equality test the library performs on them
is `self.type == Type.LIST`, and `list` is distinct from every other constant
there, so distinct constructors are a faithful embedding for every use site. -/
inductive Ty where
  | boolean
  | dictionary
  | float
  | integer
  | list
  | long
  | string
  | text
  | uuid
  deriving DecidableEq, Repr

/-- `src/formulaic/attributes.py`, class `Attribute`.  `default` is the value
produced by the stored zero-argument default thunk; `formatter` may raise
`ValueError` (modelled as `Except.error` with the message); `validator`
returns a truthiness-collapsed boolean. -/
structure Attribute where
  default : Value
  formatter : Value → Except String Value
  required : Bool
  type : Option Ty
  validator : Value → Bool

/-- `Attribute.format` (attributes.py lines 49-67): `None` short-circuits to
`None`; a list value of a `LIST`-typed attribute maps the formatter over the
items; otherwise the formatter is applied to the value itself. -/
def Attribute.format (a : Attribute) (value : Value) : Except String Value :=
  if value = Value.none then
    Except.ok Value.none
  else if a.type = some Ty.list ∧ value.isList then
    (value.elements.mapM a.formatter).map Value.list
  else
    a.formatter value

/-- `Attribute.validate` (attributes.py lines 69-85): a required falsy value
fails; any other falsy value passes; a list value of a `LIST`-typed attribute
passes iff the validator holds for each item; otherwise the validator decides. -/
def Attribute.validate (a : Attribute) (value : Value) : Bool :=
  if a.required && value.falsy then
    false
  else if value.falsy then
    true
  else if a.type = some Ty.list ∧ value.isList then
    value.elements.all a.validator
  else
    a.validator value

/-- Python `d.get(key)` on an insertion-ordered dict. -/
def alookup : List (String × Value) → String → Option Value
  | [], _ => Option.none
  | (k, v) :: rest, key => if k = key then some v else alookup rest key

/-- Python `d[key] = v`: update in place if the key is present, else append
(dicts are insertion-ordered). -/
def aset : List (String × Value) → String → Value → List (String × Value)
  | [], key, v => [(key, v)]
  | (k, w) :: rest, key, v =>
      if k = key then (k, v) :: rest else (k, w) :: aset rest key v

/-- Python `d.pop(key, None)`: drop the entry for `key` if present. -/
def aerase : List (String × Value) → String → List (String × Value)
  | [], _ => []
  | (k, w) :: rest, key => if k = key then rest else (k, w) :: aerase rest key

/-- Python `dict(d1, **d2)`: the keys of `d1` in order with values overridden
by `d2` where present, followed by the entries of `d2` whose keys are new. -/
def amerge (d1 d2 : List (String × Value)) : List (String × Value) :=
  d1.map (fun kv => (kv.1, (alookup d2 kv.1).getD kv.2)) ++
    d2.filter (fun kv => (alookup d1 kv.1).isNone)

/-- Python `d.get(key)` on the attribute-metadata dict. -/
def mlookup : List (String × Attribute) → String → Option Attribute
  | [], _ => Option.none
  | (k, a) :: rest, key => if k = key then some a else mlookup rest key

/-- The exceptions `Model.__setattr__` can raise: in Python both are
`ValueError`; the constructor distinguishes the formatter failure (carrying
the formatter's message) from the validation failure (carrying the attribute
name), matching the spec's FormatError / ValidationError taxonomy. -/
inductive PyErr where
  | formatError (msg : String)
  | validationError (attribute_name : String)
  deriving DecidableEq, Repr

/-- Decidable equality of `Except` results (omitted from the core library). -/
def exceptDecEq {ε α : Type} [DecidableEq ε] [DecidableEq α] :
    (a b : Except ε α) → Decidable (a = b)
  | .ok x, .ok y =>
      if h : x = y then isTrue (h ▸ rfl) else
        isFalse (fun hh => h (by cases hh; rfl))
  | .error x, .error y =>
      if h : x = y then isTrue (h ▸ rfl) else
        isFalse (fun hh => h (by cases hh; rfl))
  | .ok _, .error _ => isFalse nofun
  | .error _, .ok _ => isFalse nofun

instance {ε α : Type} [DecidableEq ε] [DecidableEq α] :
    DecidableEq (Except ε α) := exceptDecEq

/-- One invocation of a trigger handler (`Trigger.trigger`, triggers.py lines
24-48): the trigger's attribute-name set together with the old and new
attribute values passed to the handler (the third handler argument is the
model instance itself). -/
structure TriggerEvent where
  attribute_names : Finset String
  old_attribute_value : Value
  new_attribute_value : Value
  deriving DecidableEq

/-- The per-instance state of a `Model` (models.py): `attribute_data`,
`changed_attribute_data`, `processed_attributes` and the `initialized` flag.
The lazily materialized dicts are represented already materialized (any access
materializes them, and every state-changing path accesses them first). -/
structure ModelState where
  attribute_data : List (String × Value)
  changed_attribute_data : List (String × Value)
  processed_attributes : Finset String
  initialized : Bool
  deriving DecidableEq

/-- The per-class metadata of a `Model` subclass: `attribute_metadata` (dict
from attribute name to `Attribute`, insertion-ordered) and `trigger_metadata`
(dict keyed by the trigger's frozenset of attribute names; only the name sets
matter to the embedding since handler invocations are recorded as events). -/
structure ModelClass where
  attribute_metadata : List (String × Attribute)
  trigger_metadata : List (Finset String)

/-- `merged_attribute_data` (models.py lines 145-153):
`dict(self.attribute_data, **self.changed_attribute_data)`. -/
def Model.merged_attribute_data (m : ModelState) : List (String × Value) :=
  amerge m.attribute_data m.changed_attribute_data

/-- The prior effective value computed at models.py lines 233-234:
`self.changed_attribute_data.get(name, self.attribute_data.get(name))`,
with `None` for a fully absent key (as `dict.get` returns). -/
def effectivePrior (m : ModelState) (attribute_name : String) : Value :=
  ((alookup m.changed_attribute_data attribute_name).getD
    ((alookup m.attribute_data attribute_name).getD Value.none))

/-- The tail of `Model.__setattr__` (models.py lines 244-252): add the name to
`processed_attributes`, then fire every trigger whose name set contains the
written name and is a subset of the processed set, passing the handler the old
value, the new value and the model. -/
def processAndFire (cls : ModelClass) (m : ModelState) (attribute_name : String)
    (old_attribute_value new_attribute_value : Value) :
    ModelState × List TriggerEvent :=
  let m' := { m with
    processed_attributes := insert attribute_name m.processed_attributes }
  (m',
    (cls.trigger_metadata.filter (fun attribute_names =>
        decide (attribute_name ∈ attribute_names) &&
          decide (attribute_names ⊆ m'.processed_attributes))).map
      (fun attribute_names =>
        ⟨attribute_names, old_attribute_value, new_attribute_value⟩))

/-- `Model.__setattr__` (models.py lines 204-252).  A write to an undeclared
name falls through to ordinary Python attribute assignment, which leaves the
modelled field state untouched.  The change test at line 238 is Python `!=`
on builtin values, the negation of `Value.pyEq` — in particular a prior
`True` and a new `1` compare equal there and take the no-op branch. -/
def Model.setattr (cls : ModelClass) (m : ModelState) (attribute_name : String)
    (attribute_value : Value) : Except PyErr (ModelState × List TriggerEvent) :=
  match mlookup cls.attribute_metadata attribute_name with
  | Option.none => Except.ok (m, [])
  | some attr =>
    match attr.format attribute_value with
    | Except.error msg => Except.error (PyErr.formatError msg)
    | Except.ok new_attribute_value =>
      if attr.validate new_attribute_value then
        if m.initialized then
          if (alookup m.attribute_data attribute_name).isNone ∨
              Value.pyEq new_attribute_value
                (effectivePrior m attribute_name) = false then
            Except.ok (processAndFire cls
              { m with changed_attribute_data := (aset m.changed_attribute_data
                  attribute_name new_attribute_value) }
              attribute_name (effectivePrior m attribute_name)
              new_attribute_value)
          else
            Except.ok
              ({ m with
                  changed_attribute_data := (aerase m.changed_attribute_data
                    attribute_name),
                  processed_attributes := (m.processed_attributes.erase
                    attribute_name) }, [])
        else
          Except.ok (processAndFire cls
            { m with attribute_data := (aset m.attribute_data attribute_name
                new_attribute_value) }
            attribute_name (effectivePrior m attribute_name)
            new_attribute_value)
      else
        Except.error (PyErr.validationError attribute_name)

/-- The loop of `Model.__init__` (models.py lines 60-66): for each declared
attribute in metadata order, write the provided value if the constructor
arguments contain the attribute's name. -/
def initLoop (cls : ModelClass) (attributes : List (String × Value)) :
    List (String × Attribute) → ModelState × List TriggerEvent →
    Except PyErr (ModelState × List TriggerEvent)
  | [], acc => Except.ok acc
  | (attribute_name, _) :: rest, acc =>
    match alookup attributes attribute_name with
    | Option.none => initLoop cls attributes rest acc
    | some v =>
      match Model.setattr cls acc.1 attribute_name v with
      | Except.error e => Except.error e
      | Except.ok (m', events) => initLoop cls attributes rest (m', acc.2 ++ events)

/-- `Model.__init__` (models.py lines 28-69): start uninitialized with
`attribute_data` holding every declared attribute's default (the lazy getter
at lines 71-84 materializes exactly this dict on first access, which happens
inside the first `setattr`), apply the provided constructor arguments to the
declared attributes in metadata order, then flip `initialized` to `True`.
The events fired by construction-time writes are returned alongside. -/
def Model.init (cls : ModelClass) (attributes : List (String × Value)) :
    Except PyErr (ModelState × List TriggerEvent) :=
  match initLoop cls attributes cls.attribute_metadata
    ({ attribute_data := cls.attribute_metadata.map (fun p => (p.1, p.2.default)),
       changed_attribute_data := [],
       processed_attributes := ∅,
       initialized := false }, []) with
  | Except.error e => Except.error e
  | Except.ok (m, events) => Except.ok ({ m with initialized := true }, events)

/-- The generator consumed by `all(...)` in `Model.validate` (models.py lines
284-288): validate each declared attribute against its entry in the merged
dict, short-circuiting at the first failure; a missing key raises `KeyError`
(modelled as `Option.none`), which can only happen before the first failure
because `all` stops consuming there. -/
def validateLoop (merged : List (String × Value)) :
    List (String × Attribute) → Option Bool
  | [] => some true
  | (attribute_name, attr) :: rest =>
    match alookup merged attribute_name with
    | Option.none => Option.none
    | some v => if attr.validate v then validateLoop merged rest else some false

/-- `Model.validate` (models.py lines 277-288): `some b` is the returned
boolean, `none` is an escaped `KeyError`.  It reads the instance state and
returns a boolean without mutating anything (its Lean type takes the state and
produces no new state). -/
def Model.validate (cls : ModelClass) (m : ModelState) : Option Bool :=
  validateLoop (Model.merged_attribute_data m) cls.attribute_metadata

/-- The interface of a `Persistor` as `Model.persist` consumes it: its
`persist` method maps the merged attribute dict to either `None` (no result,
modelled `none`) or the key-attribute dict it reports back. -/
def Persistor := List (String × Value) → Option (List (String × Value))

/-- The observable outcome of `Model.persist`: the `RuntimeError` raised when
no persistor is configured, an escaped `KeyError` from `validate`, or a normal
return carrying the new state and the returned boolean. -/
inductive PersistOutcome where
  | configError
  | keyError
  | result (m : ModelState) (value : Bool)
  deriving DecidableEq

/-- `Model.persist` (models.py lines 254-275): raise with no persistor; return
`False` if `validate()` fails; hand the merged dict to the persistor; return
`False` on an absent result; otherwise replace `attribute_data` with the merge
of the merged dict and the returned key dict, clear `changed_attribute_data`
and return `True`. -/
def Model.persist (cls : ModelClass) (persistor : Option Persistor)
    (m : ModelState) : PersistOutcome :=
  match persistor with
  | Option.none => PersistOutcome.configError
  | some p =>
    match Model.validate cls m with
    | Option.none => PersistOutcome.keyError
    | some false => PersistOutcome.result m false
    | some true =>
      match p (Model.merged_attribute_data m) with
      | Option.none => PersistOutcome.result m false
      | some key_attribute_data =>
        PersistOutcome.result
          { m with
              attribute_data := (amerge (Model.merged_attribute_data m)
                key_attribute_data),
              changed_attribute_data := [] }
          true

/-- Characters accepted by the character class of `VALID_UUID_FORMAT`
(validators.py lines 11-12): `[a-zA-Z0-9]`, i.e. ASCII letters and digits. -/
def uuidClassChar (c : Char) : Bool := c.isAlpha || c.isDigit

/-- Consume exactly `n` characters of the `[a-zA-Z0-9]` class, returning the
remaining input (the regex engine's behavior for the fixed-count groups of
`VALID_UUID_FORMAT`). -/
def alnumRun : Nat → List Char → Option (List Char)
  | 0, cs => some cs
  | _ + 1, [] => Option.none
  | n + 1, c :: cs => if uuidClassChar c then alnumRun n cs else Option.none

/-- Consume the literal hyphen separating two groups of the pattern. -/
def expectHyphen : List Char → Option (List Char)
  | c :: cs => if c = '-' then some cs else Option.none
  | [] => Option.none

/-- `re.match(VALID_UUID_FORMAT, s)`: match the anchored-at-start pattern
8-4-4-4-12 of `[a-zA-Z0-9]` groups joined by hyphens, returning the input that
remains after the matched prefix. -/
def uuidMatchRest (s : String) : Option (List Char) :=
  ((((((((alnumRun 8 s.toList).bind expectHyphen).bind
    (alnumRun 4)).bind expectHyphen).bind
    (alnumRun 4)).bind expectHyphen).bind
    (alnumRun 4)).bind expectHyphen).bind
    (alnumRun 12)

/-- `Validator.uuid` on a string (validators.py lines 110-123):
`match and match.group() == value` — the pattern must match and the matched
prefix must be the whole string, i.e. nothing may remain.  Python returns
`None`/`False`/`True` here; the embedding collapses this to its truthiness,
which is how every caller consumes it. -/
def uuidFullMatch (s : String) : Bool :=
  match uuidMatchRest s with
  | some [] => true
  | _ => false

/-- `Validator.uuid` (validators.py lines 110-123): non-strings fail the
`isinstance(value, Type.UUID)` guard (`Type.UUID` is the string type). -/
def Validator.uuid (value : Value) : Bool :=
  match value with
  | .str s => uuidFullMatch s
  | _ => false

/-- `src/formulaic/persistors.py`, class `SQLPersistor`: the table name and
the frozenset of key-attribute names (a list of distinct names here; the
constructor builds at most a singleton). -/
structure SQLPersistor where
  table_name : String
  key_attribute_names : List String
  deriving DecidableEq, Repr

/-- The `SQLPersistor` constructor (persistors.py lines 40-47):
`frozenset([key_attribute_name]) if key_attribute_name else frozenset()` (a
falsy key name — absent or empty — yields the empty key set). -/
def SQLPersistor.mk_ (table_name : String) (key_attribute_name : Option String) :
    SQLPersistor :=
  { table_name,
    key_attribute_names :=
      match key_attribute_name with
      | some k => if k = "" then [] else [k]
      | Option.none => [] }

/-- `SQLPersistor._partition_attributes` (persistors.py lines 186-205): one
pass over the attribute dict appending each entry to the key dict or the
non-key dict according to membership of its name in `key_attribute_names`. -/
def SQLPersistor.partition_attributes (p : SQLPersistor)
    (attributes : List (String × Value)) :
    List (String × Value) × List (String × Value) :=
  attributes.foldl
    (fun acc kv =>
      if kv.1 ∈ p.key_attribute_names then (acc.1 ++ [kv], acc.2)
      else (acc.1, acc.2 ++ [kv]))
    ([], [])

/-- The INSERT-or-UPDATE decision and its operands. -/
inductive SQLAction where
  | update (key_attributes non_key_attributes : List (String × Value))
  | insert (non_key_attributes : List (String × Value))
  deriving DecidableEq, Repr

/-- `SQLPersistor.persist` (persistors.py lines 65-83): partition the
attributes; if the key dict is non-empty and all of its values are truthy,
perform the UPDATE, else perform the INSERT on the non-key attributes.  The
SQL execution against the connection and the driver-result mapping are
environment interaction; the embedding returns the chosen operation with its
operands (the SQL text itself is `insert_sql` / `update_sql` below). -/
def SQLPersistor.persist (p : SQLPersistor)
    (attributes : List (String × Value)) : SQLAction :=
  if (p.partition_attributes attributes).1 ≠ [] ∧
      ((p.partition_attributes attributes).1.all
        (fun kv => kv.2.truthy)) = true then
    SQLAction.update (p.partition_attributes attributes).1
      (p.partition_attributes attributes).2
  else
    SQLAction.insert (p.partition_attributes attributes).2

/-- Python `str.capitalize` (ASCII): uppercase the first character, lowercase
the rest. -/
def pyCapitalize (s : String) : String :=
  match s.toList with
  | [] => ""
  | c :: cs => String.mk (c.toUpper :: cs.map Char.toLower)

/-- Python `str.split(sep)` for a single-character separator, over character
lists (`acc` holds the current chunk reversed). -/
def splitOnChar (sep : Char) : List Char → List Char → List (List Char)
  | [], acc => [acc.reverse]
  | c :: cs, acc =>
      if c = sep then acc.reverse :: splitOnChar sep cs []
      else splitOnChar sep cs (c :: acc)

/-- `SQLPersistor._column_name` (persistors.py lines 85-98): split the
attribute name on underscores and concatenate the capitalized parts. -/
def SQLPersistor.column_name (attribute_name : String) : String :=
  String.join ((splitOnChar '_' attribute_name.toList []).map
    (fun part => pyCapitalize (String.mk part)))

/-- `SQLPersistor._column_value` (persistors.py lines 100-111): `NULL` for
`None`, otherwise the single-quoted `str()` of the value with no escaping. -/
def SQLPersistor.column_value (attribute_value : Value) : String :=
  if attribute_value = Value.none then "NULL"
  else "'" ++ attribute_value.pyStr ++ "'"

/-- `SQLPersistor._insert_sql` (persistors.py lines 139-160). -/
def SQLPersistor.insert_sql (p : SQLPersistor)
    (non_key_attributes : List (String × Value)) : String :=
  "INSERT INTO " ++ p.table_name ++ " (" ++
    String.intercalate ", "
      (non_key_attributes.map (fun kv => SQLPersistor.column_name kv.1)) ++
    ") VALUES (" ++
    String.intercalate ", "
      (non_key_attributes.map (fun kv => SQLPersistor.column_value kv.2)) ++
    ")"

/-- `SQLPersistor._update_sql` (persistors.py lines 226-256). -/
def SQLPersistor.update_sql (p : SQLPersistor)
    (key_attributes non_key_attributes : List (String × Value)) : String :=
  "UPDATE " ++ p.table_name ++ " SET " ++
    String.intercalate ", "
      (non_key_attributes.map (fun kv =>
        SQLPersistor.column_name kv.1 ++ " = " ++
          SQLPersistor.column_value kv.2)) ++
    " WHERE " ++
    String.intercalate " AND "
      (key_attributes.map (fun kv =>
        SQLPersistor.column_name kv.1 ++ " = " ++
          SQLPersistor.column_value kv.2))

/-! ### Dictionary lemmas -/

theorem alookup_append_some {l1 : List (String × Value)}
    (l2 : List (String × Value)) {k : String} {v : Value}
    (h : alookup l1 k = some v) : alookup (l1 ++ l2) k = some v := by
  induction l1 with
  | nil => simp [alookup] at h
  | cons hd tl ih =>
    obtain ⟨k1, v1⟩ := hd
    by_cases hk : k1 = k
    · simpa [alookup, hk] using h
    · rw [alookup] at h
      simp only [hk, if_false] at h
      simpa [alookup, hk] using ih h

theorem alookup_append_none {l1 : List (String × Value)}
    (l2 : List (String × Value)) {k : String}
    (h : alookup l1 k = Option.none) : alookup (l1 ++ l2) k = alookup l2 k := by
  induction l1 with
  | nil => simp [alookup]
  | cons hd tl ih =>
    obtain ⟨k1, v1⟩ := hd
    by_cases hk : k1 = k
    · simp [alookup, hk] at h
    · rw [alookup] at h
      simp only [hk, if_false] at h
      simpa [alookup, hk] using ih h

theorem alookup_map_override (d : List (String × Value))
    (f : String → Value → Value) (k : String) :
    alookup (d.map (fun kv => (kv.1, f kv.1 kv.2))) k =
      (alookup d k).map (f k) := by
  induction d with
  | nil => simp [alookup]
  | cons hd tl ih =>
    obtain ⟨k1, v1⟩ := hd
    by_cases hk : k1 = k
    · subst hk; simp [alookup]
    · simp [alookup, hk, ih]

theorem alookup_filter_key (d : List (String × Value)) (q : String → Bool)
    (k : String) :
    alookup (d.filter (fun kv => q kv.1)) k =
      if q k then alookup d k else Option.none := by
  induction d with
  | nil => simp [alookup]
  | cons hd tl ih =>
    obtain ⟨k1, v1⟩ := hd
    by_cases hq : q k1
    · by_cases hk : k1 = k
      · subst hk; simp [alookup, List.filter, hq]
      · simp [alookup, List.filter, hq, hk, ih]
    · by_cases hk : k1 = k
      · subst hk
        simp only [List.filter, hq]
        rw [ih]
        simp [hq]
      · simp only [List.filter, hq]
        rw [ih]
        simp [alookup, hk]

/-- The merged dict looks up to the changed value where present, else the base
value: the precedence rule of `dict(d1, **d2)`. -/
theorem alookup_amerge (d1 d2 : List (String × Value)) (k : String) :
    alookup (amerge d1 d2) k =
      match alookup d1 k with
      | some v => some ((alookup d2 k).getD v)
      | Option.none => alookup d2 k := by
  unfold amerge
  cases h1 : alookup d1 k with
  | some v =>
    have hmap : alookup (d1.map (fun kv => (kv.1, (alookup d2 kv.1).getD kv.2))) k
        = some ((alookup d2 k).getD v) := by
      rw [alookup_map_override d1 (fun s w => (alookup d2 s).getD w) k, h1]
      rfl
    simpa using alookup_append_some _ hmap
  | none =>
    have hmap : alookup (d1.map (fun kv => (kv.1, (alookup d2 kv.1).getD kv.2))) k
        = Option.none := by
      rw [alookup_map_override d1 (fun s w => (alookup d2 s).getD w) k, h1]
      rfl
    rw [alookup_append_none _ hmap]
    have := alookup_filter_key d2 (fun s => (alookup d1 s).isNone) k
    simp only [h1, Option.isNone_none, if_true] at this
    simpa using this

theorem alookup_aset (d : List (String × Value)) (k : String) (v : Value)
    (k' : String) :
    alookup (aset d k v) k' = if k = k' then some v else alookup d k' := by
  induction d with
  | nil =>
    by_cases hk : k = k' <;> simp [aset, alookup, hk]
  | cons hd tl ih =>
    obtain ⟨k1, v1⟩ := hd
    by_cases h1 : k1 = k
    · subst h1
      by_cases hk : k1 = k' <;> simp [aset, alookup, hk]
    · by_cases hk : k1 = k'
      · subst hk
        have : ¬k = k1 := fun h => h1 h.symm
        simp [aset, alookup, h1, this]
      · simp [aset, alookup, h1, hk, ih]

theorem mlookup_isSome_of_mem {md : List (String × Attribute)}
    {p : String × Attribute} (h : p ∈ md) : (mlookup md p.1).isSome = true := by
  induction md with
  | nil => cases h
  | cons hd tl ih =>
    obtain ⟨k1, a1⟩ := hd
    by_cases hk : k1 = p.1
    · simp [mlookup, hk]
    · simp only [mlookup, hk, if_false]
      rcases List.mem_cons.mp h with h1 | h1
      · subst h1; simp at hk
      · exact ih h1

/-! ### The attribute-data completeness invariant

`attribute_data` is lazily seeded with a default for every declared attribute
(models.py lines 79-84) and no operation ever removes a key, so every declared
name stays present in `attribute_data` — and hence in the merged dict — for
the whole life of an instance.  `Reachable` captures the states an instance
can actually be in. -/

/-- Every declared attribute name has an entry in `attribute_data`. -/
def AttrDataComplete (cls : ModelClass) (m : ModelState) : Prop :=
  ∀ p ∈ cls.attribute_metadata, (alookup m.attribute_data p.1).isSome = true

/-- The states a `Model` instance can reach: just constructed, or one
successful attribute write, or one `persist` returning normally, after a
reachable state. -/
inductive Reachable (cls : ModelClass) : ModelState → Prop where
  | init (attributes : List (String × Value)) (m : ModelState)
      (events : List TriggerEvent)
      (h : Model.init cls attributes = Except.ok (m, events)) : Reachable cls m
  | step (m : ModelState) (name : String) (v : Value) (m' : ModelState)
      (events : List TriggerEvent) (hm : Reachable cls m)
      (h : Model.setattr cls m name v = Except.ok (m', events)) :
      Reachable cls m'
  | persistStep (m : ModelState) (p : Option Persistor) (b : Bool)
      (m' : ModelState) (hm : Reachable cls m)
      (h : Model.persist cls p m = PersistOutcome.result m' b) :
      Reachable cls m'

theorem setattr_attrDataComplete {cls : ModelClass} {m : ModelState}
    {name : String} {v : Value} {m' : ModelState} {events : List TriggerEvent}
    (hc : AttrDataComplete cls m)
    (h : Model.setattr cls m name v = Except.ok (m', events)) :
    AttrDataComplete cls m' := by
  intro p hp
  have hbase := hc p hp
  unfold Model.setattr at h
  split at h
  · cases h; exact hbase
  · rename_i attr hattr
    split at h
    · cases h
    · rename_i newVal hfmt
      split at h
      · split at h
        · split at h
          · cases h
            simpa [processAndFire] using hbase
          · cases h
            exact hbase
        · cases h
          simp only [processAndFire]
          rw [alookup_aset]
          split
          · rfl
          · exact hbase
      · cases h

theorem init_attrDataComplete {cls : ModelClass}
    {attributes : List (String × Value)} {m : ModelState}
    {events : List TriggerEvent}
    (h : Model.init cls attributes = Except.ok (m, events)) :
    AttrDataComplete cls m := by
  unfold Model.init at h
  have h0 : AttrDataComplete cls
      { attribute_data := cls.attribute_metadata.map (fun p => (p.1, p.2.default)),
        changed_attribute_data := [],
        processed_attributes := ∅,
        initialized := false } := by
    intro p hp
    show (alookup (cls.attribute_metadata.map (fun q => (q.1, q.2.default))) p.1).isSome = true
    have hms := mlookup_isSome_of_mem hp
    obtain ⟨a, ha⟩ := Option.isSome_iff_exists.mp hms
    have : alookup (cls.attribute_metadata.map (fun q => (q.1, q.2.default))) p.1
        = (mlookup cls.attribute_metadata p.1).map Attribute.default := by
      clear ha hms hp
      induction cls.attribute_metadata with
      | nil => rfl
      | cons hd tl ih =>
        by_cases hk : hd.1 = p.1 <;> simp [alookup, mlookup, hk, ih]
    rw [this, ha]
    rfl
  -- the init loop preserves completeness (it only performs setattrs)
  suffices hloop : ∀ (md : List (String × Attribute)) (acc : ModelState × List TriggerEvent),
      AttrDataComplete cls acc.1 →
      ∀ {res : ModelState × List TriggerEvent},
        initLoop cls attributes md acc = Except.ok res → AttrDataComplete cls res.1 by
    revert h
    split
    · intro h; cases h
    · rename_i r hr
      intro h
      cases h
      intro p hp
      exact hloop cls.attribute_metadata _ h0 hr p hp
  intro md
  induction md with
  | nil =>
    intro acc hacc res hres
    cases hres
    exact hacc
  | cons hd tl ih =>
    intro acc hacc res hres
    obtain ⟨aname, aattr⟩ := hd
    rw [initLoop] at hres
    split at hres
    · exact ih acc hacc hres
    · rename_i v hv
      split at hres
      · cases hres
      · rename_i m1 events1 hset
        exact ih _ (setattr_attrDataComplete hacc hset) hres

theorem persist_attrDataComplete {cls : ModelClass} {p : Option Persistor}
    {m : ModelState} {m' : ModelState} {b : Bool}
    (hc : AttrDataComplete cls m)
    (h : Model.persist cls p m = PersistOutcome.result m' b) :
    AttrDataComplete cls m' := by
  unfold Model.persist at h
  split at h
  · cases h
  · split at h
    · cases h
    · cases h
      exact hc
    · split at h
      · cases h
        exact hc
      · rename_i key hkey
        cases h
        intro q hq
        have hbase := hc q hq
        obtain ⟨v, hv⟩ := Option.isSome_iff_exists.mp hbase
        show (alookup (amerge (Model.merged_attribute_data m) key) q.1).isSome = true
        rw [alookup_amerge]
        have hmv : (alookup (Model.merged_attribute_data m) q.1).isSome = true := by
          unfold Model.merged_attribute_data
          rw [alookup_amerge, hv]
          rfl
        obtain ⟨w, hw⟩ := Option.isSome_iff_exists.mp hmv
        rw [hw]
        cases alookup key q.1 <;> rfl

theorem reachable_attrDataComplete {cls : ModelClass} {m : ModelState}
    (h : Reachable cls m) : AttrDataComplete cls m := by
  induction h with
  | init attributes m events h => exact init_attrDataComplete h
  | step m name v m' events hm h ih => exact setattr_attrDataComplete ih h
  | persistStep m p b m' hm h ih => exact persist_attrDataComplete ih h

/-- Completeness of `attribute_data` transfers to the merged dict. -/
theorem merged_complete {cls : ModelClass} {m : ModelState}
    (hc : AttrDataComplete cls m) :
    ∀ p ∈ cls.attribute_metadata,
      (alookup (Model.merged_attribute_data m) p.1).isSome = true := by
  intro p hp
  obtain ⟨v, hv⟩ := Option.isSome_iff_exists.mp (hc p hp)
  unfold Model.merged_attribute_data
  rw [alookup_amerge, hv]
  rfl

/-! ### Branch lemmas for `Model.setattr` -/

mutual

/-- Python `==` is reflexive on embedded values. -/
theorem Value.pyEq_refl : ∀ v : Value, Value.pyEq v v = true
  | .none => rfl
  | .bool b => by cases b <;> rfl
  | .int n => by simp [Value.pyEq]
  | .str s => by simp [Value.pyEq]
  | .list vs => by
      rw [show Value.pyEq (Value.list vs) (Value.list vs) =
        Value.pyEqList vs vs from by simp [Value.pyEq]]
      exact Value.pyEqList_refl vs

/-- Python `==` is reflexive on lists of embedded values. -/
theorem Value.pyEqList_refl : ∀ vs : List Value, Value.pyEqList vs vs = true
  | [] => rfl
  | v :: vs => by
      rw [show Value.pyEqList (v :: vs) (v :: vs) =
        (Value.pyEq v v && Value.pyEqList vs vs) from by simp [Value.pyEqList]]
      rw [Value.pyEq_refl v, Value.pyEqList_refl vs]
      rfl

end

theorem setattr_undeclared (cls : ModelClass) (m : ModelState) (name : String)
    (v : Value) (h : mlookup cls.attribute_metadata name = Option.none) :
    Model.setattr cls m name v = Except.ok (m, []) := by
  simp only [Model.setattr, h]

theorem setattr_invalid (cls : ModelClass) (m : ModelState) (name : String)
    (v : Value) (attr : Attribute) (newVal : Value)
    (hattr : mlookup cls.attribute_metadata name = some attr)
    (hfmt : attr.format v = Except.ok newVal)
    (hval : attr.validate newVal = false) :
    Model.setattr cls m name v =
      Except.error (PyErr.validationError name) := by
  simp only [Model.setattr, hattr, hfmt, hval]
  simp

theorem setattr_noop (cls : ModelClass) (m : ModelState) (name : String)
    (v : Value) (attr : Attribute) (newVal : Value)
    (hattr : mlookup cls.attribute_metadata name = some attr)
    (hfmt : attr.format v = Except.ok newVal)
    (hval : attr.validate newVal = true)
    (hinit : m.initialized = true)
    (hmem : (alookup m.attribute_data name).isSome = true)
    (heqp : Value.pyEq newVal (effectivePrior m name) = true) :
    Model.setattr cls m name v =
      Except.ok ({ m with
        changed_attribute_data := aerase m.changed_attribute_data name,
        processed_attributes := m.processed_attributes.erase name }, []) := by
  obtain ⟨w, hw⟩ := Option.isSome_iff_exists.mp hmem
  simp only [Model.setattr, hattr, hfmt, hval, hinit, if_true, hw, heqp]
  simp

theorem setattr_change (cls : ModelClass) (m : ModelState) (name : String)
    (v : Value) (attr : Attribute) (newVal : Value)
    (hattr : mlookup cls.attribute_metadata name = some attr)
    (hfmt : attr.format v = Except.ok newVal)
    (hval : attr.validate newVal = true)
    (hinit : m.initialized = true)
    (hcond : (alookup m.attribute_data name).isNone = true ∨
      Value.pyEq newVal (effectivePrior m name) = false) :
    Model.setattr cls m name v =
      Except.ok
        ({ m with
            changed_attribute_data := (aset m.changed_attribute_data name
              newVal),
            processed_attributes := insert name m.processed_attributes },
          (cls.trigger_metadata.filter (fun ns =>
              decide (name ∈ ns) &&
                decide (ns ⊆ insert name m.processed_attributes))).map
            (fun ns => ⟨ns, effectivePrior m name, newVal⟩)) := by
  simp only [Model.setattr, hattr, hfmt, hval, hinit, if_true]
  rw [if_pos hcond]
  rfl

theorem setattr_uninitialized (cls : ModelClass) (m : ModelState)
    (name : String) (v : Value) (attr : Attribute) (newVal : Value)
    (hattr : mlookup cls.attribute_metadata name = some attr)
    (hfmt : attr.format v = Except.ok newVal)
    (hval : attr.validate newVal = true)
    (hinit : m.initialized = false) :
    Model.setattr cls m name v =
      Except.ok
        ({ m with
            attribute_data := (aset m.attribute_data name newVal),
            processed_attributes := insert name m.processed_attributes },
          (cls.trigger_metadata.filter (fun ns =>
              decide (name ∈ ns) &&
                decide (ns ⊆ insert name m.processed_attributes))).map
            (fun ns => ⟨ns, effectivePrior m name, newVal⟩)) := by
  simp only [Model.setattr, hattr, hfmt, hval, hinit]
  simp [processAndFire]

/-- A successful post-initialization write never touches `attribute_data`. -/
theorem setattr_initialized_attribute_data {cls : ModelClass} {m : ModelState}
    {name : String} {v : Value} {m' : ModelState} {events : List TriggerEvent}
    (hinit : m.initialized = true)
    (h : Model.setattr cls m name v = Except.ok (m', events)) :
    m'.attribute_data = m.attribute_data := by
  unfold Model.setattr at h
  simp only [hinit, eq_self_iff_true, if_true] at h
  split at h
  · cases h; rfl
  · split at h
    · cases h
    · split at h
      · split at h
        · cases h; rfl
        · cases h; rfl
      · cases h

/-- A `persist` that returns normally never touches `processed_attributes`. -/
theorem persist_processed_attributes {cls : ModelClass} {p : Option Persistor}
    {m m' : ModelState} {b : Bool}
    (h : Model.persist cls p m = PersistOutcome.result m' b) :
    m'.processed_attributes = m.processed_attributes := by
  unfold Model.persist at h
  split at h
  · cases h
  · split at h
    · cases h
    · cases h; rfl
    · split at h
      · cases h; rfl
      · cases h; rfl

/-- When every listed attribute has an entry in the merged dict, the
`validate` loop terminates normally and answers `true` exactly when every
listed attribute's validator accepts its merged entry. -/
theorem validateLoop_sound (merged : List (String × Value)) :
    ∀ md : List (String × Attribute),
      (∀ p ∈ md, (alookup merged p.1).isSome = true) →
      (validateLoop merged md).isSome = true ∧
        (validateLoop merged md = some true ↔
          ∀ p ∈ md, ∃ v, alookup merged p.1 = some v ∧
            p.2.validate v = true) := by
  intro md
  induction md with
  | nil =>
    intro _
    refine ⟨rfl, ?_⟩
    simp [validateLoop]
  | cons hd tl ih =>
    intro h
    obtain ⟨aname, attr⟩ := hd
    have hh := h _ (List.mem_cons_self _ _)
    obtain ⟨v, hv⟩ := Option.isSome_iff_exists.mp hh
    have htl := ih (fun p hp => h p (List.mem_cons_of_mem _ hp))
    rw [validateLoop, hv]
    dsimp only
    by_cases hval : attr.validate v = true
    · rw [if_pos hval]
      refine ⟨htl.1, ?_⟩
      rw [htl.2]
      constructor
      · intro hall p hp
        rcases List.mem_cons.mp hp with h1 | h1
        · subst h1; exact ⟨v, hv, hval⟩
        · exact hall p h1
      · intro hall p hp
        exact hall p (List.mem_cons_of_mem _ hp)
    · rw [if_neg hval]
      refine ⟨rfl, ?_⟩
      constructor
      · intro habs; simp at habs
      · intro hall
        obtain ⟨w, hw, hvw⟩ := hall _ (List.mem_cons_self _ _)
        rw [hv] at hw
        cases hw
        exact absurd hvw hval

theorem mlookup_mem {md : List (String × Attribute)} {k : String}
    {a : Attribute} (h : mlookup md k = some a) : (k, a) ∈ md := by
  induction md with
  | nil => cases h
  | cons hd tl ih =>
    obtain ⟨k1, a1⟩ := hd
    by_cases hk : k1 = k
    · subst hk
      rw [mlookup, if_pos rfl] at h
      cases h
      exact List.mem_cons_self _ _
    · rw [mlookup, if_neg hk] at h
      exact List.mem_cons_of_mem _ (ih h)

/-- A `persist` returning `False` leaves the whole state untouched. -/
theorem persist_false_state {cls : ModelClass} {p : Option Persistor}
    {m m' : ModelState}
    (h : Model.persist cls p m = PersistOutcome.result m' false) : m' = m := by
  unfold Model.persist at h
  split at h
  · cases h
  · split at h
    · cases h
    · cases h; rfl
    · split at h
      · cases h; rfl
      · cases h

/-- A `persist` returning `True` installed the merge of the merged dict and
the persistor's key dict as `attribute_data` and cleared
`changed_attribute_data`. -/
theorem persist_true_state {cls : ModelClass} {p : Persistor}
    {m m' : ModelState}
    (h : Model.persist cls (some p) m = PersistOutcome.result m' true) :
    ∃ key, p (Model.merged_attribute_data m) = some key ∧
      m' = { m with
        attribute_data := amerge (Model.merged_attribute_data m) key,
        changed_attribute_data := [] } := by
  unfold Model.persist at h
  split at h
  · cases h
  · rename_i p2 heqp
    injection heqp with heqp2
    subst heqp2
    split at h
    · cases h
    · simp at h
    · split at h
      · simp at h
      · rename_i key hkey
        cases h
        exact ⟨key, hkey, rfl⟩

/-- A construction-time (`initialized = False`) write of a declared attribute
that returns normally adds the name to `processed_attributes`. -/
theorem setattr_uninitialized_processed {cls : ModelClass} {m : ModelState}
    {name : String} {v : Value} {m' : ModelState} {events : List TriggerEvent}
    (hinit : m.initialized = false)
    (hdecl : (mlookup cls.attribute_metadata name).isSome = true)
    (h : Model.setattr cls m name v = Except.ok (m', events)) :
    m'.processed_attributes = insert name m.processed_attributes := by
  obtain ⟨attr, hattr⟩ := Option.isSome_iff_exists.mp hdecl
  unfold Model.setattr at h
  rw [hattr] at h
  simp only [hinit] at h
  split at h
  · cases h
  · split at h
    · simp only [Bool.false_eq_true, if_false] at h
      cases h
      rfl
    · cases h

/-- `_partition_attributes` computes the two ordered filters of its input by
key-name membership. -/
theorem partition_attributes_spec (p : SQLPersistor)
    (attributes : List (String × Value)) :
    SQLPersistor.partition_attributes p attributes =
      (attributes.filter (fun kv => decide (kv.1 ∈ p.key_attribute_names)),
        attributes.filter (fun kv =>
          decide (kv.1 ∉ p.key_attribute_names))) := by
  suffices haux : ∀ (l : List (String × Value))
      (acc : List (String × Value) × List (String × Value)),
      l.foldl (fun acc kv =>
        if kv.1 ∈ p.key_attribute_names then (acc.1 ++ [kv], acc.2)
        else (acc.1, acc.2 ++ [kv])) acc =
        (acc.1 ++ l.filter (fun kv => decide (kv.1 ∈ p.key_attribute_names)),
          acc.2 ++ l.filter (fun kv =>
            decide (kv.1 ∉ p.key_attribute_names))) by
    unfold SQLPersistor.partition_attributes
    rw [haux]
    simp
  intro l
  induction l with
  | nil => intro acc; simp
  | cons hd tl ih =>
    intro acc
    by_cases hk : hd.1 ∈ p.key_attribute_names
    · rw [List.foldl_cons, if_pos hk, ih]
      simp [List.filter_cons, hk]
    · rw [List.foldl_cons, if_neg hk, ih]
      simp [List.filter_cons, hk]

/-! ### Characterizing the UUID matcher -/

theorem alnumRun_eq_some_iff (n : Nat) (cs rest : List Char) :
    alnumRun n cs = some rest ↔
      ∃ pre, cs = pre ++ rest ∧ pre.length = n ∧
        pre.all uuidClassChar = true := by
  induction n generalizing cs with
  | zero =>
    rw [alnumRun]
    constructor
    · intro h
      cases h
      exact ⟨[], rfl, rfl, rfl⟩
    · rintro ⟨pre, hsplit, hlen, hall⟩
      rw [List.length_eq_zero.mp hlen] at hsplit
      simp [hsplit]
  | succ n ih =>
    cases cs with
    | nil =>
      rw [alnumRun]
      constructor
      · intro h; cases h
      · rintro ⟨pre, hsplit, hlen, hall⟩
        cases pre with
        | nil => cases hlen
        | cons p ps => cases hsplit
    | cons c cs' =>
      rw [alnumRun]
      by_cases hc : uuidClassChar c = true
      · rw [if_pos hc, ih]
        constructor
        · rintro ⟨pre, hsplit, hlen, hall⟩
          refine ⟨c :: pre, ?_, ?_, ?_⟩
          · rw [List.cons_append, hsplit]
          · simp [hlen]
          · simp [List.all_cons, hc, hall]
        · rintro ⟨pre, hsplit, hlen, hall⟩
          cases pre with
          | nil => cases hlen
          | cons p ps =>
            rw [List.cons_append] at hsplit
            injection hsplit with h1 h2
            subst h1
            refine ⟨ps, h2, ?_, ?_⟩
            · simpa using hlen
            · simp only [List.all_cons, Bool.and_eq_true] at hall
              exact hall.2
      · rw [if_neg hc]
        constructor
        · intro h; cases h
        · rintro ⟨pre, hsplit, hlen, hall⟩
          cases pre with
          | nil => cases hlen
          | cons p ps =>
            rw [List.cons_append] at hsplit
            injection hsplit with h1 h2
            subst h1
            simp only [List.all_cons, Bool.and_eq_true] at hall
            exact absurd hall.1 hc

theorem expectHyphen_eq_some_iff (cs rest : List Char) :
    expectHyphen cs = some rest ↔ cs = '-' :: rest := by
  cases cs with
  | nil =>
    rw [expectHyphen]
    constructor
    · intro h; cases h
    · intro h; cases h
  | cons c cs' =>
    rw [expectHyphen]
    by_cases hc : c = '-'
    · subst hc
      simp
    · rw [if_neg hc]
      constructor
      · intro h; cases h
      · intro h
        injection h with h1 h2
        exact absurd h1 hc

/-- The strings the library's UUID pattern fully matches: five hyphen-joined
groups of lengths 8, 4, 4, 4 and 12 drawn from `[a-zA-Z0-9]`. -/
def UuidShape (s : String) : Prop :=
  ∃ g1 g2 g3 g4 g5 : List Char,
    s.toList =
      g1 ++ '-' :: (g2 ++ '-' :: (g3 ++ '-' :: (g4 ++ '-' :: g5))) ∧
    g1.length = 8 ∧ g2.length = 4 ∧ g3.length = 4 ∧ g4.length = 4 ∧
    g5.length = 12 ∧
    (g1 ++ g2 ++ g3 ++ g4 ++ g5).all uuidClassChar = true

theorem expectHyphen_cons (t : List Char) : expectHyphen ('-' :: t) = some t := by
  simp [expectHyphen]

theorem uuidMatchRest_eq_iff (s : String) :
    uuidMatchRest s = some [] ↔ UuidShape s := by
  unfold uuidMatchRest
  constructor
  · intro h
    obtain ⟨t8, hX8, hrun12⟩ := Option.bind_eq_some.mp h
    obtain ⟨t7, hX7, hhy4⟩ := Option.bind_eq_some.mp hX8
    obtain ⟨t6, hX6, hrun4c⟩ := Option.bind_eq_some.mp hX7
    obtain ⟨t5, hX5, hhy3⟩ := Option.bind_eq_some.mp hX6
    obtain ⟨t4, hX4, hrun4b⟩ := Option.bind_eq_some.mp hX5
    obtain ⟨t3, hX3, hhy2⟩ := Option.bind_eq_some.mp hX4
    obtain ⟨t2, hX2, hrun4a⟩ := Option.bind_eq_some.mp hX3
    obtain ⟨t1, hrun8, hhy1⟩ := Option.bind_eq_some.mp hX2
    obtain ⟨g1, hg1, hlen1, hall1⟩ := (alnumRun_eq_some_iff _ _ _).mp hrun8
    rw [expectHyphen_eq_some_iff] at hhy1
    obtain ⟨g2, hg2, hlen2, hall2⟩ := (alnumRun_eq_some_iff _ _ _).mp hrun4a
    rw [expectHyphen_eq_some_iff] at hhy2
    obtain ⟨g3, hg3, hlen3, hall3⟩ := (alnumRun_eq_some_iff _ _ _).mp hrun4b
    rw [expectHyphen_eq_some_iff] at hhy3
    obtain ⟨g4, hg4, hlen4, hall4⟩ := (alnumRun_eq_some_iff _ _ _).mp hrun4c
    rw [expectHyphen_eq_some_iff] at hhy4
    obtain ⟨g5, hg5, hlen5, hall5⟩ := (alnumRun_eq_some_iff _ _ _).mp hrun12
    rw [List.append_nil] at hg5
    refine ⟨g1, g2, g3, g4, g5, ?_, hlen1, hlen2, hlen3, hlen4, hlen5, ?_⟩
    · rw [hg1, hhy1, hg2, hhy2, hg3, hhy3, hg4, hhy4, hg5]
    · simp only [List.append_assoc, List.all_append, Bool.and_eq_true]
      exact ⟨hall1, hall2, hall3, hall4, hall5⟩
  · rintro ⟨g1, g2, g3, g4, g5, hsplit, hlen1, hlen2, hlen3, hlen4, hlen5,
      hall⟩
    simp only [List.append_assoc, List.all_append, Bool.and_eq_true] at hall
    obtain ⟨hall1, hall2, hall3, hall4, hall5⟩ := hall
    have e1 : alnumRun 8 (g1 ++ '-' :: (g2 ++ '-' :: (g3 ++ '-' ::
        (g4 ++ '-' :: g5)))) = some ('-' :: (g2 ++ '-' :: (g3 ++ '-' ::
        (g4 ++ '-' :: g5)))) :=
      (alnumRun_eq_some_iff _ _ _).mpr ⟨g1, rfl, hlen1, hall1⟩
    have e2 : alnumRun 4 (g2 ++ '-' :: (g3 ++ '-' :: (g4 ++ '-' :: g5))) =
        some ('-' :: (g3 ++ '-' :: (g4 ++ '-' :: g5))) :=
      (alnumRun_eq_some_iff _ _ _).mpr ⟨g2, rfl, hlen2, hall2⟩
    have e3 : alnumRun 4 (g3 ++ '-' :: (g4 ++ '-' :: g5)) =
        some ('-' :: (g4 ++ '-' :: g5)) :=
      (alnumRun_eq_some_iff _ _ _).mpr ⟨g3, rfl, hlen3, hall3⟩
    have e4 : alnumRun 4 (g4 ++ '-' :: g5) = some ('-' :: g5) :=
      (alnumRun_eq_some_iff _ _ _).mpr ⟨g4, rfl, hlen4, hall4⟩
    have e5 : alnumRun 12 g5 = some [] :=
      (alnumRun_eq_some_iff _ _ _).mpr
        ⟨g5, (List.append_nil g5).symm, hlen5, hall5⟩
    rw [hsplit, e1]
    simp only [Option.some_bind, expectHyphen_cons, e2, e3, e4, e5]

theorem uuidFullMatch_iff (s : String) :
    uuidFullMatch s = true ↔ UuidShape s := by
  rw [uuidFullMatch]
  cases hm : uuidMatchRest s with
  | none =>
    constructor
    · intro h; cases h
    · intro h
      have hsome := (uuidMatchRest_eq_iff s).mpr h
      rw [hm] at hsome
      cases hsome
  | some l =>
    cases l with
    | nil =>
      constructor
      · intro _
        exact (uuidMatchRest_eq_iff s).mp hm
      · intro _
        rfl
    | cons c cs =>
      constructor
      · intro h; cases h
      · intro h
        have hsome := (uuidMatchRest_eq_iff s).mpr h
        rw [hm] at hsome
        simp at hsome

/-! ### Concrete fixtures -/

/-- An `Attribute()` with no configuration: identity formatter, always-true
validator, `None` default, not required (attributes.py lines 37-47). -/
def plainAttr : Attribute :=
  { default := Value.none, formatter := fun v => Except.ok v,
    required := false, type := Option.none, validator := fun _ => true }

/-- An `Attribute(required=True)` with the identity formatter. -/
def requiredAttr : Attribute :=
  { plainAttr with required := true }

/-- A model class with attributes `a` and `b` and a trigger on `{a, b}`. -/
def abCls : ModelClass :=
  { attribute_metadata := [("a", plainAttr), ("b", plainAttr)],
    trigger_metadata := [{"a", "b"}] }

/-- The state of `abCls` just after `Model()` with no arguments. -/
def abM0 : ModelState :=
  { attribute_data := [("a", Value.none), ("b", Value.none)],
    changed_attribute_data := [],
    processed_attributes := ∅,
    initialized := true }

/-- `abM0` after the post-construction write `a = 1`. -/
def abM1 : ModelState :=
  { abM0 with
      changed_attribute_data := [("a", Value.int 1)],
      processed_attributes := {"a"} }

/-- A persistor whose `persist` reports an empty key dict. -/
def abPersistor : Persistor := fun _ => some []

/-- `abM1` after a successful `persist()` through `abPersistor`. -/
def abM2 : ModelState :=
  { attribute_data := [("a", Value.int 1), ("b", Value.none)],
    changed_attribute_data := [],
    processed_attributes := {"a"},
    initialized := true }

/-- `abM2` after the post-persist write `b = 2`. -/
def abM3 : ModelState :=
  { abM2 with
      changed_attribute_data := [("b", Value.int 2)],
      processed_attributes := insert "b" ({"a"} : Finset String) }

/-- A model class with the single required attribute `x`. -/
def reqCls : ModelClass :=
  { attribute_metadata := [("x", requiredAttr)], trigger_metadata := [] }

/-- The state of `reqCls` just after `Model()` with no arguments:
`attribute_data` holds the (falsy, never-validated) default `None`. -/
def reqM0 : ModelState :=
  { attribute_data := [("x", Value.none)],
    changed_attribute_data := [],
    processed_attributes := ∅,
    initialized := true }

/-! ### The claims -/

/-- C1, amended: for a reachable model that has finished initialization and a
declared attribute, a write whose formatted result passes the attribute's
validation and equals the prior effective value (changed data taking
precedence over attribute data) is a no-op — the name is dropped from
`changed_attribute_data`, discarded from `processed_attributes`,
`attribute_data` is untouched and no trigger handler runs.  (The amendment
relative to the original claim is the validation premise: a write whose
formatted result fails validation raises instead of being a no-op.) -/
theorem claim_C1 (cls : ModelClass) (m : ModelState) (name : String)
    (v : Value) (attr : Attribute) (newVal : Value)
    (hreach : Reachable cls m)
    (hinit : m.initialized = true)
    (hattr : mlookup cls.attribute_metadata name = some attr)
    (hfmt : attr.format v = Except.ok newVal)
    (hval : attr.validate newVal = true)
    (heq : newVal = effectivePrior m name) :
    Model.setattr cls m name v =
      Except.ok ({ m with
        changed_attribute_data := aerase m.changed_attribute_data name,
        processed_attributes := m.processed_attributes.erase name }, []) := by
  have hmem : (alookup m.attribute_data name).isSome = true :=
    reachable_attrDataComplete hreach (name, attr) (mlookup_mem hattr)
  have heqp : Value.pyEq newVal (effectivePrior m name) = true := by
    rw [heq]
    exact Value.pyEq_refl _
  exact setattr_noop cls m name v attr newVal hattr hfmt hval hinit hmem heqp

/-- C1 witness: writing `a = 1` on `abM1` (whose changed data already holds
`a = 1`) is the no-op described by `claim_C1`. -/
theorem claim_C1_witness :
    Model.setattr abCls abM1 "a" (Value.int 1) =
      Except.ok ({ abM1 with
        changed_attribute_data := aerase abM1.changed_attribute_data "a",
        processed_attributes := abM1.processed_attributes.erase "a" }, []) :=
  claim_C1 abCls abM1 "a" (Value.int 1) plainAttr (Value.int 1)
    (Reachable.step abM0 "a" (Value.int 1) abM1 []
      (Reachable.init [] abM0 [] (by decide)) (by decide))
    rfl rfl (by decide) (by decide) (by decide)

/-- C1 counterexample: on the freshly constructed `reqM0` (reachable,
initialized), writing `None` to the required attribute `x` formats to `None`,
which equals the prior effective value — yet the write is not a no-op: it
raises `ValidationError` because a required falsy value fails validation. -/
theorem claim_C1_counterexample :
    Model.init reqCls [] = Except.ok (reqM0, []) ∧
    reqM0.initialized = true ∧
    (mlookup reqCls.attribute_metadata "x").isSome = true ∧
    ((mlookup reqCls.attribute_metadata "x").map
      (fun a => a.format Value.none)) =
      some (Except.ok (effectivePrior reqM0 "x")) ∧
    Model.setattr reqCls reqM0 "x" Value.none =
      Except.error (PyErr.validationError "x") := by
  refine ⟨by decide, rfl, by decide, by decide, by decide⟩

/-- C2: a post-initialization write of a declared attribute that is recorded
as a change (the name not present in `attribute_data`, or the new formatted
value differing — by Python `!=`, which equates `True` with `1` — from the
prior effective value) stores the formatted value in
`changed_attribute_data`, marks the name processed, and fires exactly the
declared triggers whose attribute-name set contains the written name and is a
subset of the updated processed set — each handler receiving the prior
effective value, the new formatted value and the model.  Firing is
re-evaluated on every such write with no deduplication. -/
theorem claim_C2 (cls : ModelClass) (m : ModelState) (name : String)
    (v : Value) (attr : Attribute) (newVal : Value)
    (hattr : mlookup cls.attribute_metadata name = some attr)
    (hfmt : attr.format v = Except.ok newVal)
    (hval : attr.validate newVal = true)
    (hinit : m.initialized = true)
    (hcond : (alookup m.attribute_data name).isNone = true ∨
      Value.pyEq newVal (effectivePrior m name) = false) :
    Model.setattr cls m name v =
      Except.ok
        ({ m with
            changed_attribute_data := (aset m.changed_attribute_data name
              newVal),
            processed_attributes := insert name m.processed_attributes },
          (cls.trigger_metadata.filter (fun ns =>
              decide (name ∈ ns) &&
                decide (ns ⊆ insert name m.processed_attributes))).map
            (fun ns => ⟨ns, effectivePrior m name, newVal⟩)) := by
  simp only [Model.setattr, hattr, hfmt, hval, hinit, if_true]
  rw [if_pos hcond]
  rfl

/-- C2 witness: with `a` already processed, the differing write `b = 2` on
`abM2` records the change and fires the `{a, b}` trigger with prior value
`None` and new value `2`. -/
theorem claim_C2_witness :
    Model.setattr abCls abM2 "b" (Value.int 2) =
      Except.ok
        ({ abM2 with
            changed_attribute_data := (aset abM2.changed_attribute_data "b"
              (Value.int 2)),
            processed_attributes := insert "b" abM2.processed_attributes },
          (abCls.trigger_metadata.filter (fun ns =>
              decide ("b" ∈ ns) &&
                decide (ns ⊆ insert "b" abM2.processed_attributes))).map
            (fun ns => ⟨ns, effectivePrior abM2 "b", Value.int 2⟩)) :=
  claim_C2 abCls abM2 "b" (Value.int 2) plainAttr (Value.int 2)
    rfl rfl (by decide) rfl (Or.inr (by decide))

/-- C3: `Attribute.validate` returns `False` for a required falsy value;
`True` for any other falsy value regardless of its type; for a `LIST`-kind
attribute on a (non-falsy) list value, `True` iff the validator holds for
every element; otherwise the validator's verdict.  And a write whose
formatted value fails this check surfaces a `ValidationError` to the
caller. -/
theorem claim_C3 :
    (∀ (a : Attribute) (v : Value), a.required = true → v.falsy = true →
      a.validate v = false) ∧
    (∀ (a : Attribute) (v : Value), a.required = false → v.falsy = true →
      a.validate v = true) ∧
    (∀ (a : Attribute) (vs : List Value), a.type = some Ty.list →
      Value.falsy (Value.list vs) = false →
      a.validate (Value.list vs) = vs.all a.validator) ∧
    (∀ (a : Attribute) (v : Value),
      ¬(a.type = some Ty.list ∧ v.isList = true) → v.falsy = false →
      a.validate v = a.validator v) ∧
    (∀ (cls : ModelClass) (m : ModelState) (name : String) (v : Value)
      (attr : Attribute) (newVal : Value),
      mlookup cls.attribute_metadata name = some attr →
      attr.format v = Except.ok newVal →
      attr.validate newVal = false →
      Model.setattr cls m name v =
        Except.error (PyErr.validationError name)) := by
  refine ⟨?_, ?_, ?_, ?_, ?_⟩
  · intro a v hreq hfal
    simp [Attribute.validate, hreq, hfal]
  · intro a v hreq hfal
    simp [Attribute.validate, hreq, hfal]
  · intro a vs hty hfal
    simp [Attribute.validate, hty, hfal, Value.isList, Value.elements]
  · intro a v hnl hfal
    by_cases hreq : a.required = true
    · simp [Attribute.validate, hreq, hfal, hnl]
    · simp only [Bool.not_eq_true] at hreq
      simp [Attribute.validate, hreq, hfal, hnl]
  · intro cls m name v attr newVal hattr hfmt hval
    exact setattr_invalid cls m name v attr newVal hattr hfmt hval

/-- C3 witness: the four validation rules and the raising write, each at a
concrete input (a required falsy `None` fails; a falsy `0` on a non-required
integer-validating attribute passes; a `LIST`-kind attribute maps its
validator; a non-list value goes to the validator; writing `None` to the
required `x` of `reqCls` raises). -/
theorem claim_C3_witness :
    requiredAttr.validate Value.none = false ∧
    Attribute.validate
      { plainAttr with validator := fun v => v.isList } (Value.int 0) = true ∧
    Attribute.validate
      { plainAttr with
          type := some Ty.list,
          validator := fun v => !v.falsy }
      (Value.list [Value.int 1, Value.int 0]) =
      List.all [Value.int 1, Value.int 0] (fun v => !v.falsy) ∧
    Attribute.validate
      { plainAttr with validator := fun v => v.isList } (Value.int 7) =
      (Value.int 7).isList ∧
    Model.setattr reqCls reqM0 "x" Value.none =
      Except.error (PyErr.validationError "x") := by
  refine ⟨?_, ?_, ?_, ?_, ?_⟩
  · exact claim_C3.1 requiredAttr Value.none rfl rfl
  · exact claim_C3.2.1 _ (Value.int 0) rfl (by decide)
  · exact claim_C3.2.2.1 _ [Value.int 1, Value.int 0] rfl (by decide)
  · exact claim_C3.2.2.2.1 _ (Value.int 7) (by simp [plainAttr]) (by decide)
  · exact claim_C3.2.2.2.2 reqCls reqM0 "x" Value.none requiredAttr
      Value.none rfl rfl rfl

/-- A persistor whose `persist` reports no result (`None`). -/
def nonePersistor : Persistor := fun _ => Option.none

/-- C4: `persist` raises the configuration error when no persistor is set;
returns `False` without consulting the persistor when `validate()` is false
(the conclusion holds for every persistor `p`, so the persistor's behavior is
never invoked); and returns `False` with the state exactly as before when the
persistor reports an absence value. -/
theorem claim_C4 :
    (∀ (cls : ModelClass) (m : ModelState),
      Model.persist cls Option.none m = PersistOutcome.configError) ∧
    (∀ (cls : ModelClass) (p : Persistor) (m : ModelState),
      Model.validate cls m = some false →
      Model.persist cls (some p) m = PersistOutcome.result m false) ∧
    (∀ (cls : ModelClass) (p : Persistor) (m : ModelState),
      Model.validate cls m = some true →
      p (Model.merged_attribute_data m) = Option.none →
      Model.persist cls (some p) m = PersistOutcome.result m false) := by
  refine ⟨?_, ?_, ?_⟩
  · intro cls m
    rfl
  · intro cls p m hval
    simp only [Model.persist, hval]
  · intro cls p m hval hp
    simp only [Model.persist, hval, hp]

/-- C4 witness: the three clauses at concrete inputs — no persistor on
`reqM0`; a failing `validate` (required `x` is `None`); and a persistor
reporting no result on the validating `abM0`. -/
theorem claim_C4_witness :
    Model.persist reqCls Option.none reqM0 = PersistOutcome.configError ∧
    Model.persist reqCls (some abPersistor) reqM0 =
      PersistOutcome.result reqM0 false ∧
    Model.persist abCls (some nonePersistor) abM0 =
      PersistOutcome.result abM0 false :=
  ⟨claim_C4.1 reqCls reqM0,
    claim_C4.2.1 reqCls abPersistor reqM0 (by decide),
    claim_C4.2.2 abCls nonePersistor abM0 (by decide) rfl⟩

/-- C5: `attribute_data` is only mutated by a successful persist — a
post-initialization write that returns normally never changes it (differing
values land in `changed_attribute_data` only); a persist returning `True`
replaced it with the merge of the merged attribute data and the
persistor-returned key dict and cleared `changed_attribute_data`; and a
persist returning `False` left the state identical. -/
theorem claim_C5 :
    (∀ (cls : ModelClass) (m : ModelState) (name : String) (v : Value)
      (m' : ModelState) (events : List TriggerEvent),
      m.initialized = true →
      Model.setattr cls m name v = Except.ok (m', events) →
      m'.attribute_data = m.attribute_data) ∧
    (∀ (cls : ModelClass) (p : Persistor) (m m' : ModelState),
      Model.persist cls (some p) m = PersistOutcome.result m' true →
      ∃ key, p (Model.merged_attribute_data m) = some key ∧
        m'.attribute_data = amerge (Model.merged_attribute_data m) key ∧
        m'.changed_attribute_data = []) ∧
    (∀ (cls : ModelClass) (p : Option Persistor) (m m' : ModelState),
      Model.persist cls p m = PersistOutcome.result m' false → m' = m) := by
  refine ⟨?_, ?_, ?_⟩
  · intro cls m name v m' events hinit h
    exact setattr_initialized_attribute_data hinit h
  · intro cls p m m' h
    obtain ⟨key, hkey, hm⟩ := persist_true_state h
    exact ⟨key, hkey, by rw [hm], by rw [hm]⟩
  · intro cls p m m' h
    exact persist_false_state h

/-- C5 witness: the write `a = 1` on `abM0` leaves `attribute_data` alone;
the successful persist from `abM1` to `abM2` installed the merged data and
cleared the changed data; the failing persist on `reqM0` returned the state
unchanged. -/
theorem claim_C5_witness :
    abM1.attribute_data = abM0.attribute_data ∧
    (∃ key, abPersistor (Model.merged_attribute_data abM1) = some key ∧
      abM2.attribute_data =
        amerge (Model.merged_attribute_data abM1) key ∧
      abM2.changed_attribute_data = []) ∧
    reqM0 = reqM0 :=
  ⟨claim_C5.1 abCls abM0 "a" (Value.int 1) abM1 [] rfl (by decide),
    claim_C5.2.1 abCls abPersistor abM1 abM2 (by decide),
    claim_C5.2.2 reqCls (some abPersistor) reqM0 reqM0 (by decide)⟩

/-- C6: on every reachable model state, `validate` returns without raising
(every declared name is present in the merged dict, so the generator's lookup
never fails), takes no state and returns a boolean which is `True` exactly
when every declared attribute's validator (under the required/falsy rules)
accepts that attribute's entry in the merge of `attribute_data` and
`changed_attribute_data`, changed data taking precedence. -/
theorem claim_C6 (cls : ModelClass) (m : ModelState) (h : Reachable cls m) :
    (Model.validate cls m).isSome = true ∧
      (Model.validate cls m = some true ↔
        ∀ p ∈ cls.attribute_metadata,
          ∃ v, alookup (Model.merged_attribute_data m) p.1 = some v ∧
            p.2.validate v = true) := by
  have hc := merged_complete (reachable_attrDataComplete h)
  unfold Model.validate
  exact validateLoop_sound _ _ hc

/-- C6 witness: on the freshly constructed `abM0`, `validate` terminates
normally (and indeed returns `some true`). -/
theorem claim_C6_witness :
    (Model.validate abCls abM0).isSome = true ∧ Model.validate abCls abM0 = some true := by
  refine ⟨(claim_C6 abCls abM0 (Reachable.init [] abM0 [] (by decide))).1, ?_⟩
  have hiff := (claim_C6 abCls abM0 (Reachable.init [] abM0 [] (by decide))).2
  exact hiff.mpr (by decide)

/-- Hexadecimal digits — what the spec's word "hexadecimal" denotes (the
counterexample shows the code's character class is wider than this). -/
def isHexChar (c : Char) : Bool :=
  c.isDigit || ('a' ≤ c && c ≤ 'f') || ('A' ≤ c && c ≤ 'F')

/-- C7 counterexample: `g` is not a hexadecimal digit, yet `Validator.uuid`
accepts a string of `g`s in every group position — the pattern's character
class is `[a-zA-Z0-9]`, not hexadecimal, so the claim's "rejects any string
containing a non-hexadecimal character in a group position" is false. -/
theorem claim_C7_counterexample :
    isHexChar 'g' = false ∧
    Validator.uuid (Value.str "gggggggg-gggg-gggg-gggg-gggggggggggg") =
      true := by
  exact ⟨rfl, by decide⟩

/-- C7, amended: `Validator.uuid` accepts exactly the strings of the
8-4-4-4-12 hyphen-joined shape over the alphanumeric class `[a-zA-Z0-9]`
(wider than hexadecimal), case-insensitively, as an exact full-string match:
it accepts the canonical example in either case, rejects the
one-digit-short variant, `not-a-uuid`, and any trailing extra character, and
rejects every non-string value. -/
theorem claim_C7 :
    (∀ s : String, Validator.uuid (Value.str s) = true ↔ UuidShape s) ∧
    Validator.uuid (Value.str "550e8400-e29b-41d4-a716-446655440000") =
      true ∧
    Validator.uuid (Value.str "550E8400-E29B-41D4-A716-446655440000") =
      true ∧
    Validator.uuid (Value.str "550e8400-e29b-41d4-a716-44665544000") =
      false ∧
    Validator.uuid (Value.str "not-a-uuid") = false ∧
    Validator.uuid (Value.str "550e8400-e29b-41d4-a716-446655440000x") =
      false ∧
    Validator.uuid (Value.int 5) = false := by
  refine ⟨?_, by decide, by decide, by decide, by decide, by decide, rfl⟩
  intro s
  exact uuidFullMatch_iff s

/-- C8: `SQLPersistor.persist` partitions its input into the ordered
key-name / non-key-name filters, performs the UPDATE with those two operand
dicts exactly when the key part is non-empty and all of its values truthy,
and otherwise performs the INSERT on the non-key part — in particular an
input containing no key name at all is INSERTed whole. -/
theorem claim_C8 :
    (∀ (p : SQLPersistor) (attributes : List (String × Value)),
      SQLPersistor.partition_attributes p attributes =
        (attributes.filter (fun kv =>
            decide (kv.1 ∈ p.key_attribute_names)),
          attributes.filter (fun kv =>
            decide (kv.1 ∉ p.key_attribute_names)))) ∧
    (∀ (p : SQLPersistor) (attributes : List (String × Value)),
      (SQLPersistor.partition_attributes p attributes).1 ≠ [] →
      ((SQLPersistor.partition_attributes p attributes).1.all
        (fun kv => kv.2.truthy)) = true →
      SQLPersistor.persist p attributes =
        SQLAction.update (SQLPersistor.partition_attributes p attributes).1
          (SQLPersistor.partition_attributes p attributes).2) ∧
    (∀ (p : SQLPersistor) (attributes : List (String × Value)),
      ((SQLPersistor.partition_attributes p attributes).1 = [] ∨
        ((SQLPersistor.partition_attributes p attributes).1.all
          (fun kv => kv.2.truthy)) = false) →
      SQLPersistor.persist p attributes =
        SQLAction.insert
          (SQLPersistor.partition_attributes p attributes).2) ∧
    (∀ (p : SQLPersistor) (attributes : List (String × Value)),
      (∀ kv ∈ attributes, kv.1 ∉ p.key_attribute_names) →
      SQLPersistor.persist p attributes = SQLAction.insert attributes) := by
  refine ⟨partition_attributes_spec, ?_, ?_, ?_⟩
  · intro p attributes h1 h2
    unfold SQLPersistor.persist
    rw [if_pos ⟨h1, h2⟩]
  · intro p attributes hor
    unfold SQLPersistor.persist
    rw [if_neg]
    rintro ⟨h1, h2⟩
    rcases hor with h | h
    · exact h1 h
    · rw [h2] at h; cases h
  · intro p attributes hnone
    have hpart := partition_attributes_spec p attributes
    have hkey : (SQLPersistor.partition_attributes p attributes).1 = [] := by
      rw [hpart]
      simp only [List.filter_eq_nil_iff]
      intro kv hkv
      simpa using hnone kv hkv
    have hnonkey :
        (SQLPersistor.partition_attributes p attributes).2 = attributes := by
      rw [hpart]
      simp only [List.filter_eq_self]
      intro kv hkv
      simpa using hnone kv hkv
    unfold SQLPersistor.persist
    rw [if_neg]
    · rw [hnonkey]
    · rintro ⟨h1, _⟩
      exact h1 hkey

/-- The adapter used by the C8 witness: table `users`, key field `id`. -/
def usersPersistor : SQLPersistor :=
  { table_name := "users", key_attribute_names := ["id"] }

/-- C8 witness: with key `id` present and truthy the operation is the UPDATE
on the partition; with no key field present the whole input is INSERTed. -/
theorem claim_C8_witness :
    SQLPersistor.persist usersPersistor
      [("id", Value.int 3), ("name", Value.str "Alice")] =
      SQLAction.update
        (SQLPersistor.partition_attributes usersPersistor
          [("id", Value.int 3), ("name", Value.str "Alice")]).1
        (SQLPersistor.partition_attributes usersPersistor
          [("id", Value.int 3), ("name", Value.str "Alice")]).2 ∧
    SQLPersistor.persist usersPersistor [("name", Value.str "Alice")] =
      SQLAction.insert [("name", Value.str "Alice")] :=
  ⟨claim_C8.2.1 usersPersistor
      [("id", Value.int 3), ("name", Value.str "Alice")]
      (by decide) (by decide),
    claim_C8.2.2.2 usersPersistor [("name", Value.str "Alice")] (by decide)⟩

/-- C9: column names split the attribute name on underscores and capitalize
each part; values serialize to `NULL` for `None` and to the single-quoted
stringification otherwise, with an embedded quote kept unescaped; and the
INSERT statement has the literal comma-separated
`INSERT INTO t (cols) VALUES (vals)` shape, shown both in general and on a
concrete two-column example. -/
theorem claim_C9 :
    (∀ name : String, SQLPersistor.column_name name =
      String.join ((splitOnChar '_' name.toList []).map
        (fun part => pyCapitalize (String.mk part)))) ∧
    SQLPersistor.column_name "first_name" = "FirstName" ∧
    SQLPersistor.column_value Value.none = "NULL" ∧
    (∀ v : Value, v ≠ Value.none →
      SQLPersistor.column_value v = "'" ++ v.pyStr ++ "'") ∧
    (∀ s : String,
      SQLPersistor.column_value (Value.str s) = "'" ++ s ++ "'") ∧
    SQLPersistor.column_value (Value.str "O'Brien") = "'O'Brien'" ∧
    (∀ (p : SQLPersistor) (non_key_attributes : List (String × Value)),
      SQLPersistor.insert_sql p non_key_attributes =
        "INSERT INTO " ++ p.table_name ++ " (" ++
          String.intercalate ", " (non_key_attributes.map
            (fun kv => SQLPersistor.column_name kv.1)) ++
          ") VALUES (" ++
          String.intercalate ", " (non_key_attributes.map
            (fun kv => SQLPersistor.column_value kv.2)) ++ ")") ∧
    SQLPersistor.insert_sql usersPersistor
      [("first_name", Value.str "Alice"), ("age", Value.none)] =
      "INSERT INTO users (FirstName, Age) VALUES ('Alice', NULL)" := by
  refine ⟨fun name => rfl, by decide, rfl, ?_, ?_, by decide, fun p nk => rfl,
    by decide⟩
  · intro v hv
    unfold SQLPersistor.column_value
    rw [if_neg hv]
  · intro s
    rfl

/-- C9 witness: the general serialization rule applied to the non-`None`
value `True`, which renders as its quoted stringification. -/
theorem claim_C9_witness :
    SQLPersistor.column_value (Value.bool true) =
      "'" ++ (Value.bool true).pyStr ++ "'" :=
  claim_C9.2.2.2.1 (Value.bool true) (by decide)

/-- `abM0` before its `initialized` flag is flipped (mid-construction). -/
def abM0u : ModelState := { abM0 with initialized := false }

/-- The state after the construction-time write `a = 1` on `abM0u`. -/
def abM1u : ModelState :=
  { attribute_data := [("a", Value.int 1), ("b", Value.none)],
    changed_attribute_data := [],
    processed_attributes := {"a"},
    initialized := false }

/-- C10: `processed_attributes` is never reset — a `persist` that returns
normally (clearing only `changed_attribute_data` on success) leaves it
exactly as it was; construction-time writes of declared attributes add to it;
and concretely, after writing `a = 1`, persisting successfully, and then
writing `b = 2`, the `{a, b}` trigger fires from the `b` write because `a` is
still marked processed from before the persist. -/
theorem claim_C10 :
    (∀ (cls : ModelClass) (p : Option Persistor) (m m' : ModelState)
      (b : Bool),
      Model.persist cls p m = PersistOutcome.result m' b →
      m'.processed_attributes = m.processed_attributes) ∧
    (∀ (cls : ModelClass) (m : ModelState) (name : String) (v : Value)
      (m' : ModelState) (events : List TriggerEvent),
      m.initialized = false →
      (mlookup cls.attribute_metadata name).isSome = true →
      Model.setattr cls m name v = Except.ok (m', events) →
      m'.processed_attributes = insert name m.processed_attributes) ∧
    (Model.init abCls [] = Except.ok (abM0, []) ∧
      Model.setattr abCls abM0 "a" (Value.int 1) = Except.ok (abM1, []) ∧
      Model.persist abCls (some abPersistor) abM1 =
        PersistOutcome.result abM2 true ∧
      abM2.processed_attributes = abM1.processed_attributes ∧
      Model.setattr abCls abM2 "b" (Value.int 2) =
        Except.ok (abM3, [⟨{"a", "b"}, Value.none, Value.int 2⟩])) := by
  refine ⟨?_, ?_, by decide⟩
  · intro cls p m m' b h
    exact persist_processed_attributes h
  · intro cls m name v m' events hinit hdecl h
    exact setattr_uninitialized_processed hinit hdecl h

/-- C10 witness: the persist from `abM1` to `abM2` preserved the processed
set, and the construction-time write `a = 1` on the uninitialized `abM0u`
added `a` to it. -/
theorem claim_C10_witness :
    abM2.processed_attributes = abM1.processed_attributes ∧
    abM1u.processed_attributes = insert "a" abM0u.processed_attributes :=
  ⟨claim_C10.1 abCls (some abPersistor) abM1 abM2 true (by decide),
    claim_C10.2.1 abCls abM0u "a" (Value.int 1) abM1u [] rfl (by decide)
      (by decide)⟩

end Formulaic
